import Mathlib

/-!
Verification of the computational core of fast_ml/eda.py.

Modelling conventions:
- a numeric column is a list of optional rationals; none models a missing
  value (NaN in the source data frame), and real arithmetic is modelled
  over the rationals;
- a categorical column is a list of optional strings;
- numpy percentile calls use the default linear-interpolation method; the
  source only ever passes the integer percents 25 and 75, so the percent is
  a natural number and the virtual index floor is natural division;
- python exceptions are modelled with Except: an exception raised inside a
  loop aborts the rest of the loop, exactly as in the interpreter.
-/

namespace FastML

/-- A numeric column: each entry is present (some value) or missing. -/
abbrev NumCol := List (Option ℚ)

/-- Present (non-missing) entries of a column, in order; models
the filter `df.loc[df[var].notnull(), var]` and `s.dropna()`. -/
def dropna (col : NumCol) : List ℚ := col.filterMap id

/-- Number of distinct non-missing values, as pandas `Series.nunique`. -/
def nunique (col : NumCol) : Nat := (dropna col).dedup.length

/-- numpy `np.percentile(l, q)` with the default linear-interpolation
method, specialised to an integer percent q (the source only uses 25 and
75): the virtual index is h = q*(n-1)/100, the result interpolates between
the sorted values at positions floor h and floor h + 1 with fraction
h - floor h.  Returns none on an empty input, where numpy raises. -/
def np_percentile (l : List ℚ) (q : Nat) : Option ℚ :=
  match l with
  | [] => none
  | _ :: _ =>
    let s := List.insertionSort (fun a b => a ≤ b) l
    let m := q * (l.length - 1)
    let i := m / 100
    let f : ℚ := ((m % 100 : Nat) : ℚ) / 100
    let lo := s.getD i 0
    let hi := s.getD (i + 1) lo
    some (lo + f * (hi - lo))

/-- The pair (quartile_1, quartile_3) of `numerical_check_outliers`
(eda.py line 364): percentiles 25 and 75 of the non-missing entries. -/
def quartiles_of (col : NumCol) : Option (ℚ × ℚ) :=
  match np_percentile (dropna col) 25, np_percentile (dropna col) 75 with
  | some q1, some q3 => some (q1, q3)
  | _, _ => none

/-- The bound lower_bound = quartile_1 - tol * iqr (eda.py line 366). -/
def lower_bound (col : NumCol) (tol : ℚ) : Option ℚ :=
  (quartiles_of col).map (fun p => p.1 - tol * (p.2 - p.1))

/-- The bound upper_bound = quartile_3 + tol * iqr (eda.py line 367). -/
def upper_bound (col : NumCol) (tol : ℚ) : Option ℚ :=
  (quartiles_of col).map (fun p => p.2 + tol * (p.2 - p.1))

/-- The ten-row scenario column of the specification,
[1,2,3,4,5,6,7,8,9,1000], with no missing entry. -/
def outlier_scenario_col : NumCol :=
  [some 1, some 2, some 3, some 4, some 5, some 6, some 7, some 8, some 9,
   some 1000]

/-- Python evaluates the expression (a or b) on strings to a when a is
non-empty, so ('clf' or 'classification') evaluates to 'clf'. -/
def py_or_str (a b : String) : String := if a = "" then b else a

/-- Python `model in s` on strings is the substring test. -/
def py_in_str (sub s : String) : Bool :=
  (List.range (s.data.length + 1)).any
    (fun i => decide (sub.data = (s.data.drop i).take sub.data.length))

/-- The branch condition `model in ('clf' or 'classification')` of
`categorical_plots_with_target` (eda.py line 466). -/
def model_clf_test (model : String) : Bool :=
  py_in_str model (py_or_str "clf" "classification")

/-- One row of the outlier report of `numerical_check_outliers`
(eda.py lines 372-374). -/
structure OutRow where
  var : String
  lower_bound_outliers : Nat
  upper_bound_outliers : Nat
  total_outliers : Nat
deriving DecidableEq

/-- The numpy error raised when np.percentile is applied to an empty
array; the message does not name the offending data-frame column. -/
def empty_percentile_error : String :=
  "cannot do a non-empty take from an empty axes"

/-- The body of the per-column loop of `numerical_check_outliers`
(eda.py lines 361-374): drop missing values, take percentiles 25/75,
form the IQR bounds and count strict outliers on each side.  A column
with no non-missing value makes np.percentile raise, modelled as an
Except.error carrying numpy's message. -/
def check_outliers_one (name : String) (col : NumCol) (tol : ℚ) :
    Except String OutRow :=
  match quartiles_of col with
  | none => .error empty_percentile_error
  | some (q1, q3) =>
    let iqr := q3 - q1
    let lb := q1 - tol * iqr
    let ub := q3 + tol * iqr
    let lower := (dropna col).countP (fun x => decide (x < lb))
    let upper := (dropna col).countP (fun x => decide (ub < x))
    .ok ⟨name, lower, upper, lower + upper⟩

/-- The for-loop of eda.py lines 361-374 over the requested columns: a
python exception raised for one column propagates and aborts the whole
loop, so later columns are not processed. -/
def check_outliers_batch (cols : List (String × NumCol)) (tol : ℚ) :
    Except String (List OutRow) :=
  match cols with
  | [] => .ok []
  | (name, col) :: rest =>
    match check_outliers_one name col tol with
    | .error e => .error e
    | .ok r =>
      match check_outliers_batch rest tol with
      | .error e => .error e
      | .ok rs => .ok (r :: rs)

/-- Comparison of report rows by their total outlier count. -/
def by_total (a b : OutRow) : Prop :=
  a.total_outliers ≤ b.total_outliers

instance : DecidableRel by_total :=
  fun a b => Nat.decLe a.total_outliers b.total_outliers

instance : IsTotal OutRow by_total :=
  ⟨fun a b => Nat.le_total a.total_outliers b.total_outliers⟩

instance : IsTrans OutRow by_total :=
  ⟨fun _ _ _ hab hbc => Nat.le_trans hab hbc⟩

/-- pandas `sort_values(by='total_outliers', ascending=False)` with the
default sort kind (eda.py line 377): for a descending sort, pandas
nargsort first reverses the key and index arrays, then takes a stable
ascending argsort (numpy's argsort degenerates to a plain, stable
insertion sort below the small-array cutoff of its introsort, which
covers the frames arising here), and finally reverses the resulting
indexer.  The two reversals cancel on every group of tied keys, so tied
rows keep their original order.  The model is the same composition on
the row list: reverse, stable ascending insertion sort, reverse. -/
def pandas_sort_desc (rows : List OutRow) : List OutRow :=
  (List.insertionSort by_total rows.reverse).reverse

/-- `numerical_check_outliers` (eda.py lines 329-380): the per-column
loop, the descending sort of the aggregated table, and the percentage
column total_outliers / len(df) * 100; nrows is len(df). -/
def numerical_check_outliers (cols : List (String × NumCol)) (tol : ℚ)
    (nrows : Nat) : Except String (List (OutRow × ℚ)) :=
  match check_outliers_batch cols tol with
  | .error e => .error e
  | .ok rows => .ok ((pandas_sort_desc rows).map
      (fun r => (r, (r.total_outliers : ℚ) / (nrows : ℚ) * 100)))

/-- The numpy percentile applied to the raw series, as
`numerical_variable_detail` does (eda.py lines 94-96 and 136): the series
is not dropped of its missing entries first, and a missing entry (NaN)
makes the numpy result NaN, modelled as none. -/
def np_percentile_nan (col : NumCol) (q : Nat) : Option ℚ :=
  if col.any (fun x => x.isNone) then none
  else np_percentile (dropna col) q

/-- The quartile pair printed and used by `numerical_variable_detail`
(eda.py line 136): percentiles of the raw series, missing values
included. -/
def numerical_variable_detail_quartiles (col : NumCol) :
    Option ℚ × Option ℚ :=
  (np_percentile_nan col 25, np_percentile_nan col 75)

/-- Outcome of a call as a process: either the function returns to its
caller, or it terminates the interpreter process. -/
inductive ProcOutcome
  | completed
  | processExit
deriving DecidableEq

/-- Control flow of `numerical_variable_detail` (eda.py lines 86-89):
when the variable has fewer distinct values than the threshold the
function prints a notice and calls sys.exit(), which terminates the
running process; otherwise the analysis runs to completion. -/
def numerical_variable_detail (col : NumCol) (threshold : Nat) :
    ProcOutcome :=
  if nunique col < threshold then .processExit else .completed

/-- A categorical column: each entry is present or missing. -/
abbrev CatCol := List (Option String)

/-- The fillna('Missing') step of eda.py line 410. -/
def fillna_missing (col : CatCol) : CatCol :=
  col.map (fun x => some (x.getD "Missing"))

/-- One category's share of rows: its value_counts entry (value_counts
ignores missing entries) divided by the length of the data frame
(eda.py line 412). -/
def value_share (col : CatCol) (v : String) : ℚ :=
  ((col.filterMap id).count v : ℚ) / (col.length : ℚ)

/-- The relabelling a single entry undergoes in the np.where of eda.py
line 417, for a fully present column: kept when its share is strictly
greater than tol/100, otherwise replaced by 'Rare'. -/
def rare_relabel (col : List String) (tol : ℚ) (v : String) : String :=
  if tol / 100 < (col.count v : ℚ) / (col.length : ℚ) then v else "Rare"

/-- The rare-collapse core of `categorical_plots` (eda.py lines 412-417)
on a fully present column (as after add_missing): every entry of a
category whose share of the rows is at or below tol/100 becomes 'Rare',
entries of the other categories are unchanged. -/
def collapse_rare (col : List String) (tol : ℚ) : List String :=
  col.map (rare_relabel col tol)

/-- One column of `categorical_plots` (eda.py lines 402-421): optional
fillna('Missing'), then, when add_rare is set, the np.where relabelling
with non_rare_label computed from the value-count shares.  A missing
entry fails the isin test of line 417, so np.where replaces it with the
string 'Rare' as well. -/
def categorical_plots_relabel (col : CatCol) (add_missing add_rare : Bool)
    (rare_tol : ℚ) : CatCol :=
  let c1 := if add_missing then fillna_missing col else col
  if add_rare then
    c1.map (fun x =>
      match x with
      | some v =>
        some (if rare_tol / 100 < value_share c1 v then v else "Rare")
      | none => some "Rare")
  else c1

/-- pandas Series.mode (eda.py line 711): the distinct non-missing values
of maximal frequency. -/
def mode_candidates (col : NumCol) : List ℚ :=
  let present := dropna col
  let distinct := present.dedup
  distinct.filter
    (fun v => distinct.all (fun w => decide (present.count w ≤ present.count v)))

/-- The mode check of `categorical_plots_for_miss_and_freq` (eda.py lines
711-717): a unique mode is used, and any other outcome raises the
multiple-frequent-categories ValueError. -/
def mode_of (col : NumCol) : Except String ℚ :=
  match mode_candidates col with
  | [v] => .ok v
  | _ => .error "contains multiple frequent categories"

/-- The percentile yields a value exactly on nonempty input. -/
theorem np_percentile_eq_none_iff (l : List ℚ) (q : Nat) :
    np_percentile l q = none ↔ l = [] := by
  cases l <;> simp [np_percentile]

/-- The quartile pair exists exactly when some non-missing value does. -/
theorem quartiles_of_eq_none_iff (col : NumCol) :
    quartiles_of col = none ↔ dropna col = [] := by
  unfold quartiles_of
  cases hd : dropna col with
  | nil => simp [np_percentile]
  | cons a t => simp [np_percentile]

/-- Claim C1: for every numeric column and tolerance t > 0, the bounds of
`numerical_check_outliers` satisfy upper_bound - Q3 = t * IQR and
Q1 - lower_bound = t * IQR, where Q1 and Q3 are the linear-interpolation
25th/75th percentiles of the non-missing values and IQR = Q3 - Q1. -/
theorem numerical_check_outliers_bound_formula
    (col : NumCol) (tol q1 q3 lb ub : ℚ) (h0 : 0 < tol)
    (hq : quartiles_of col = some (q1, q3))
    (hlb : lower_bound col tol = some lb)
    (hub : upper_bound col tol = some ub) :
    ub - q3 = tol * (q3 - q1) ∧ q1 - lb = tol * (q3 - q1) := by
  unfold lower_bound at hlb
  unfold upper_bound at hub
  rw [hq] at hlb hub
  simp only [Option.map_some', Option.some.injEq] at hlb hub
  subst hlb hub
  constructor <;> ring

/-- Witness for claim C1 at the scenario column [1,...,9,1000] with
tolerance 3/2: Q1 = 3.25, Q3 = 7.75, and the bound identities hold. -/
theorem numerical_check_outliers_bound_formula_witness :
    quartiles_of outlier_scenario_col = some (13/4, 31/4) ∧
    (0 : ℚ) < 3/2 ∧
    ((29/2 : ℚ) - 31/4 = 3/2 * (31/4 - 13/4) ∧
     (13/4 : ℚ) - (-7/2) = 3/2 * (31/4 - 13/4)) := by
  have hd : dropna outlier_scenario_col = [1,2,3,4,5,6,7,8,9,1000] := by decide
  have h25 : np_percentile [1,2,3,4,5,6,7,8,9,1000] 25 = some (13/4) := by
    norm_num [np_percentile, List.insertionSort, List.orderedInsert]
  have h75 : np_percentile [1,2,3,4,5,6,7,8,9,1000] 75 = some (31/4) := by
    norm_num [np_percentile, List.insertionSort, List.orderedInsert]
  have hq : quartiles_of outlier_scenario_col = some (13/4, 31/4) := by
    unfold quartiles_of
    rw [hd, h25, h75]
  have hlb : lower_bound outlier_scenario_col (3/2) = some (-7/2) := by
    rw [lower_bound, hq]
    norm_num
  have hub : upper_bound outlier_scenario_col (3/2) = some (29/2) := by
    rw [upper_bound, hq]
    norm_num
  exact ⟨hq, by norm_num,
    numerical_check_outliers_bound_formula outlier_scenario_col (3/2)
      (13/4) (31/4) (-7/2) (29/2) (by norm_num) hq hlb hub⟩

/-- Claim C10: the condition `model in ('clf' or 'classification')` is the
substring test against the constant 'clf' alone: it is equivalent to
`model in 'clf'`, holds for model = 'clf', and fails for
model = 'classification'. -/
theorem model_clf_test_spec :
    (∀ model : String, model_clf_test model = py_in_str model "clf") ∧
    model_clf_test "clf" = true ∧
    model_clf_test "classification" = false := by
  refine ⟨fun model => rfl, by decide, by decide⟩

/-- Claim C3, counterexample: a batch holding an all-missing column and a
perfectly valid column does not return any per-column report; the whole
call aborts with numpy's error, which names no column. -/
theorem numerical_check_outliers_batch_abort_example :
    numerical_check_outliers
      [("bad", [none, none]), ("good", [some 1, some 2, some 3, some 4])]
      (3/2) 4 = .error empty_percentile_error := by
  rfl

/-- Claim C3 as amended: when any requested column has zero non-missing
values, the percentile computation raises, the error does not name the
offending column (it is numpy's fixed message), and the batch call aborts
without producing reports for the other columns. -/
theorem numerical_check_outliers_aborts_on_empty_column
    (cols : List (String × NumCol)) (tol : ℚ) (nrows : Nat)
    (h : ∃ p ∈ cols, dropna p.2 = []) :
    numerical_check_outliers cols tol nrows =
      .error empty_percentile_error := by
  have hb : check_outliers_batch cols tol = .error empty_percentile_error := by
    induction cols with
    | nil => simp at h
    | cons hd tl ih =>
      obtain ⟨p, hp, hpe⟩ := h
      rcases hd with ⟨name, col⟩
      by_cases hcol : dropna col = []
      · have h1 : check_outliers_one name col tol =
            .error empty_percentile_error := by
          unfold check_outliers_one
          rw [(quartiles_of_eq_none_iff col).2 hcol]
        unfold check_outliers_batch
        rw [h1]
      · have hmem : p ∈ tl := by
          rcases List.mem_cons.1 hp with h2 | h2
          · exact absurd (by rw [← hpe, h2]) hcol
          · exact h2
        have hrec := ih ⟨p, hmem, hpe⟩
        obtain ⟨row, hrow⟩ : ∃ row, check_outliers_one name col tol = .ok row := by
          unfold check_outliers_one
          cases hq : quartiles_of col with
          | none => exact absurd ((quartiles_of_eq_none_iff col).1 hq) hcol
          | some pair =>
            rcases pair with ⟨q1, q3⟩
            exact ⟨_, rfl⟩
        unfold check_outliers_batch
        rw [hrow, hrec]
  unfold numerical_check_outliers
  rw [hb]

/-- Witness for the amended claim C3 at a concrete two-column batch. -/
theorem numerical_check_outliers_aborts_on_empty_column_witness :
    (∃ p ∈ ([("allmiss", [none]), ("ok", [some 5, some 6])] :
        List (String × NumCol)), dropna p.2 = []) ∧
    numerical_check_outliers [("allmiss", [none]), ("ok", [some 5, some 6])]
      3 2 = .error empty_percentile_error :=
  ⟨by decide,
   numerical_check_outliers_aborts_on_empty_column _ 3 2 (by decide)⟩

/-- Evaluation helper: on the column [1,2,3] with tolerance 3/2 the
quartiles are 3/2 and 5/2, the bounds 0 and 4, and no entry is an
outlier. -/
theorem check_outliers_one_small (name : String) :
    check_outliers_one name [some 1, some 2, some 3] (3/2) =
      .ok ⟨name, 0, 0, 0⟩ := by
  have hd : dropna [some 1, some 2, some 3] = [1, 2, 3] := by decide
  have h25 : np_percentile [1, 2, 3] 25 = some (3/2) := by
    norm_num [np_percentile, List.insertionSort, List.orderedInsert]
  have h75 : np_percentile [1, 2, 3] 75 = some (5/2) := by
    norm_num [np_percentile, List.insertionSort, List.orderedInsert]
  have hq : quartiles_of [some 1, some 2, some 3] = some (3/2, 5/2) := by
    unfold quartiles_of
    rw [hd, h25, h75]
  unfold check_outliers_one
  rw [hq, hd]
  norm_num [List.countP_cons, List.countP_nil]

/-- Stability of orderedInsert with respect to the rows holding a given
total outlier count: inserting a row walks past only rows with a
strictly smaller total, so the filter on any fixed total either gains
the new row at the front or is unchanged. -/
theorem filter_orderedInsert_total (k : Nat) (a : OutRow)
    (s : List OutRow) :
    (List.orderedInsert by_total a s).filter
        (fun r => r.total_outliers == k) =
      if a.total_outliers = k
      then a :: s.filter (fun r => r.total_outliers == k)
      else s.filter (fun r => r.total_outliers == k) := by
  induction s with
  | nil =>
    by_cases hpa : a.total_outliers = k <;>
      simp [List.orderedInsert, hpa]
  | cons b t ih =>
    by_cases hr : by_total a b
    · rw [List.orderedInsert, if_pos hr]
      by_cases hpa : a.total_outliers = k <;>
        simp [List.filter_cons, hpa]
    · rw [List.orderedInsert, if_neg hr]
      rw [List.filter_cons, List.filter_cons]
      by_cases hpa : a.total_outliers = k
      · have hb : ¬ b.total_outliers = k := by
          intro hbk
          exact hr (show a.total_outliers ≤ b.total_outliers by
            rw [hbk, ← hpa])
        simp only [ih, if_pos hpa]
        simp [hb]
      · simp only [ih, if_neg hpa]

/-- Stability of the insertion sort by total outlier count: for every
fixed total k, the rows with that total appear in the sorted list in
exactly their original order. -/
theorem filter_insertionSort_total (k : Nat) (l : List OutRow) :
    (List.insertionSort by_total l).filter
        (fun r => r.total_outliers == k) =
      l.filter (fun r => r.total_outliers == k) := by
  induction l with
  | nil => rfl
  | cons a t ih =>
    rw [List.insertionSort, filter_orderedInsert_total, List.filter_cons]
    by_cases hpa : a.total_outliers = k
    · simp [hpa, ih]
    · simp [hpa, ih]

/-- The row produced for a column carries that column's name. -/
theorem check_outliers_one_var (name : String) (col : NumCol) (tol : ℚ)
    (r : OutRow) (h : check_outliers_one name col tol = .ok r) :
    r.var = name := by
  unfold check_outliers_one at h
  cases hq : quartiles_of col with
  | none =>
    rw [hq] at h
    exact absurd h (by simp)
  | some p =>
    rcases p with ⟨q1, q3⟩
    rw [hq] at h
    simp only [Except.ok.injEq] at h
    rw [← h]

/-- A successful batch reports the columns in their original order. -/
theorem check_outliers_batch_vars (cols : List (String × NumCol))
    (tol : ℚ) (brows : List OutRow)
    (hb : check_outliers_batch cols tol = .ok brows) :
    brows.map OutRow.var = cols.map Prod.fst := by
  induction cols generalizing brows with
  | nil =>
    unfold check_outliers_batch at hb
    simp only [Except.ok.injEq] at hb
    subst hb
    rfl
  | cons hd tl ih =>
    rcases hd with ⟨name, col⟩
    unfold check_outliers_batch at hb
    cases h1 : check_outliers_one name col tol with
    | error e =>
      rw [h1] at hb
      exact absurd hb (by simp)
    | ok r =>
      rw [h1] at hb
      cases h2 : check_outliers_batch tl tol with
      | error e =>
        rw [h2] at hb
        exact absurd hb (by simp)
      | ok rs =>
        rw [h2] at hb
        simp only [Except.ok.injEq] at hb
        subst hb
        simp only [List.map_cons]
        rw [check_outliers_one_var name col tol r h1, ih rs h2]

/-- Claim C7: the result table of the outlier detector is sorted by
total outlier count in descending order, it holds exactly the per-column
reports (which the batch produces in original column order, as the third
conjunct records), and the sort is stable: for every total outlier count
k, the rows with that count appear in their original column order. -/
theorem numerical_check_outliers_sorted_desc
    (cols : List (String × NumCol)) (tol : ℚ) (nrows : Nat)
    (rows : List (OutRow × ℚ)) (brows : List OutRow)
    (hb : check_outliers_batch cols tol = .ok brows)
    (h : numerical_check_outliers cols tol nrows = .ok rows) :
    rows.Pairwise (fun a b => b.1.total_outliers ≤ a.1.total_outliers) ∧
    (rows.map Prod.fst).Perm brows ∧
    brows.map OutRow.var = cols.map Prod.fst ∧
    ∀ k, (rows.map Prod.fst).filter (fun r => r.total_outliers == k) =
      brows.filter (fun r => r.total_outliers == k) := by
  unfold numerical_check_outliers at h
  rw [hb] at h
  have hrows : rows = (pandas_sort_desc brows).map
      (fun r => (r, (r.total_outliers : ℚ) / (nrows : ℚ) * 100)) := by
    simpa using h.symm
  subst hrows
  have hmapfst : ((pandas_sort_desc brows).map
      (fun r => (r, (r.total_outliers : ℚ) / (nrows : ℚ) * 100))).map
        Prod.fst = pandas_sort_desc brows := by
    rw [List.map_map]
    have hid : (Prod.fst ∘ fun r : OutRow =>
        (r, (r.total_outliers : ℚ) / (nrows : ℚ) * 100)) = id := rfl
    rw [hid, List.map_id]
  refine ⟨?_, ?_, check_outliers_batch_vars cols tol brows hb, ?_⟩
  · rw [List.pairwise_map]
    unfold pandas_sort_desc
    rw [List.pairwise_reverse]
    exact List.sorted_insertionSort by_total brows.reverse
  · rw [hmapfst]
    unfold pandas_sort_desc
    exact ((List.reverse_perm _).trans
      (List.perm_insertionSort by_total brows.reverse)).trans
      (List.reverse_perm brows)
  · intro k
    rw [hmapfst]
    unfold pandas_sort_desc
    rw [List.filter_reverse, filter_insertionSort_total,
      List.filter_reverse, List.reverse_reverse]

/-- Witness for claim C7 at a two-column batch tying at zero outliers:
the table is descending, holds both reports, and the tied columns a and
b stay in their original order a before b. -/
theorem numerical_check_outliers_sorted_desc_witness :
    List.Pairwise (fun a b => b.1.total_outliers ≤ a.1.total_outliers)
      [((⟨"a", 0, 0, 0⟩ : OutRow), (0 : ℚ)), (⟨"b", 0, 0, 0⟩, 0)] ∧
    (([((⟨"a", 0, 0, 0⟩ : OutRow), (0 : ℚ)),
       (⟨"b", 0, 0, 0⟩, 0)]).map Prod.fst).Perm
      [(⟨"a", 0, 0, 0⟩ : OutRow), ⟨"b", 0, 0, 0⟩] ∧
    ([(⟨"a", 0, 0, 0⟩ : OutRow), ⟨"b", 0, 0, 0⟩]).map OutRow.var =
      ["a", "b"] ∧
    (([((⟨"a", 0, 0, 0⟩ : OutRow), (0 : ℚ)),
       (⟨"b", 0, 0, 0⟩, 0)]).map Prod.fst).filter
        (fun r => r.total_outliers == 0) =
      ([(⟨"a", 0, 0, 0⟩ : OutRow), ⟨"b", 0, 0, 0⟩]).filter
        (fun r => r.total_outliers == 0) := by
  have hb1 : check_outliers_batch [("b", [some 1, some 2, some 3])]
      (3/2) = .ok [⟨"b", 0, 0, 0⟩] := by
    unfold check_outliers_batch
    rw [check_outliers_one_small "b"]
    rfl
  have hb : check_outliers_batch
      [("a", [some 1, some 2, some 3]), ("b", [some 1, some 2, some 3])]
      (3/2) = .ok [⟨"a", 0, 0, 0⟩, ⟨"b", 0, 0, 0⟩] := by
    unfold check_outliers_batch
    rw [check_outliers_one_small "a", hb1]
  have hfull : numerical_check_outliers
      [("a", [some 1, some 2, some 3]), ("b", [some 1, some 2, some 3])]
      (3/2) 3 = .ok [(⟨"a", 0, 0, 0⟩, 0), (⟨"b", 0, 0, 0⟩, 0)] := by
    unfold numerical_check_outliers
    rw [hb]
    norm_num [pandas_sort_desc, List.insertionSort, List.orderedInsert,
      by_total]
  have h := numerical_check_outliers_sorted_desc _ _ _ _ _ hb hfull
  exact ⟨h.1, h.2.1, h.2.2.1, h.2.2.2 0⟩

/-- Counting is preserved by a map that neither creates nor destroys the
counted value. -/
theorem count_map_eq_count (f : String → String) (y : String)
    (hf : ∀ z, f z = y ↔ z = y) (l : List String) :
    (l.map f).count y = l.count y := by
  induction l with
  | nil => rfl
  | cons a t ih =>
    simp only [List.map_cons, List.count_cons, ih]
    congr 1
    by_cases h : a = y
    · rw [(hf a).2 h, h]
    · have hfa : f a ≠ y := fun hc => h ((hf a).1 hc)
      simp [h, hfa]

/-- Claim C2: the rare-category collapser keeps exactly the categories
whose share of the rows is strictly greater than tol/100 and turns every
entry of any other category into 'Rare' (equality at the threshold
collapses); on ["A","A","A","A","B","C"] with threshold 20 both B and C
collapse. -/
theorem collapse_rare_spec :
    (∀ (col : List String) (tol : ℚ),
      collapse_rare col tol = col.map (fun v =>
        if tol / 100 < (col.count v : ℚ) / (col.length : ℚ) then v
        else "Rare")) ∧
    collapse_rare ["A", "A", "A", "A", "B", "C"] 20 =
      ["A", "A", "A", "A", "Rare", "Rare"] := by
  refine ⟨fun col tol => rfl, ?_⟩
  simp +decide only [collapse_rare, rare_relabel, List.map, List.count_cons,
    List.count_nil, List.length_cons, List.length_nil]
  norm_num

/-- Claim C6: collapsing rare categories is idempotent; applying
collapse_rare with the same threshold to its own output returns that
output unchanged. -/
theorem collapse_rare_idempotent (col : List String) (tol : ℚ) :
    collapse_rare (collapse_rare col tol) tol = collapse_rare col tol := by
  have hlen : (collapse_rare col tol).length = col.length :=
    List.length_map col (rare_relabel col tol)
  have key : ∀ y ∈ collapse_rare col tol,
      rare_relabel (collapse_rare col tol) tol y = y := by
    intro y hy
    by_cases hR : y = "Rare"
    · subst hR
      unfold rare_relabel
      exact ite_self _
    · unfold collapse_rare at hy
      obtain ⟨x, hx, hfx⟩ := List.mem_map.1 hy
      by_cases hk : tol / 100 < (col.count x : ℚ) / (col.length : ℚ)
      · unfold rare_relabel at hfx
        rw [if_pos hk] at hfx
        subst hfx
        have hcnt : (collapse_rare col tol).count x = col.count x := by
          show (col.map (rare_relabel col tol)).count x = col.count x
          apply count_map_eq_count
          intro z
          constructor
          · intro hz
            unfold rare_relabel at hz
            by_cases hkz : tol / 100 < (col.count z : ℚ) / (col.length : ℚ)
            · rwa [if_pos hkz] at hz
            · rw [if_neg hkz] at hz
              exact absurd hz.symm hR
          · intro hz
            subst hz
            unfold rare_relabel
            rw [if_pos hk]
        unfold rare_relabel
        rw [hcnt, hlen]
        exact if_pos hk
      · unfold rare_relabel at hfx
        rw [if_neg hk] at hfx
        exact absurd hfx.symm hR
  exact (List.map_congr_left key).trans (List.map_id _)

/-- Claim C5, counterexample: with add_missing = false and add_rare set,
a missing entry (position 3) is not left untouched: np.where relabels it
to 'Rare'. -/
theorem categorical_plots_missing_becomes_rare_example :
    (([some "A", some "A", some "A", none] : CatCol).getD 3 (some "") =
      none) ∧
    (categorical_plots_relabel [some "A", some "A", some "A", none]
      false true 5).getD 3 (some "") = some "Rare" := by
  exact ⟨rfl, rfl⟩

/-- Claim C5 as amended: with add_missing = false the frequency shares
are computed only over the non-missing entries, but the collapsing step
does not leave missing entries untouched: every missing entry of the
column is relabelled to 'Rare' in the output. -/
theorem categorical_plots_relabel_missing_spec (col : CatCol) (tol : ℚ)
    (i : Nat) (hi : i < col.length)
    (hmiss : col.getD i (some "") = none) :
    (∀ v, value_share col v =
      ((col.filterMap id).count v : ℚ) / (col.length : ℚ)) ∧
    (categorical_plots_relabel col false true tol).getD i (some "") =
      some "Rare" := by
  refine ⟨fun v => rfl, ?_⟩
  have hx : col[i] = none := by
    have h2 := hmiss
    rw [List.getD_eq_getElem?_getD, List.getElem?_eq_getElem hi] at h2
    simpa using h2
  have hsome : col[i]? = some none := by
    rw [List.getElem?_eq_getElem hi, hx]
  show ((col.map fun x =>
      match x with
      | some v => some (if tol / 100 < value_share col v then v else "Rare")
      | none => some "Rare").getD i (some "")) = some "Rare"
  rw [List.getD_eq_getElem?_getD, List.getElem?_map, hsome]
  rfl

/-- Witness for the amended claim C5 at the column [A, missing]. -/
theorem categorical_plots_relabel_missing_spec_witness :
    (∀ v, value_share [some "A", none] v =
      (([some "A", none] : CatCol).filterMap id).count v / 2) ∧
    (categorical_plots_relabel [some "A", none] false true 5).getD 1
      (some "") = some "Rare" := by
  have h := categorical_plots_relabel_missing_spec [some "A", none] 5 1
    (by decide) (by decide)
  exact ⟨fun v => by simpa using h.1 v, h.2⟩

/-- Present entries survive the round trip through the missing marker. -/
theorem dropna_map_some (l : List ℚ) : dropna (l.map some) = l := by
  induction l with
  | nil => rfl
  | cons a t ih =>
    simp only [List.map_cons, dropna, List.filterMap_cons] at ih ⊢
    rw [ih]
    rfl

/-- Claim C4, counterexample: `numerical_variable_detail` does not drop
missing values before its percentile computation; on [1, 2, 3, missing]
its quartiles are NaN, not the quartiles 3/2 and 5/2 of the non-missing
values. -/
theorem numerical_variable_detail_quartiles_nan_example :
    numerical_variable_detail_quartiles [some 1, some 2, some 3, none] =
      (none, none) ∧
    np_percentile (dropna [some 1, some 2, some 3, none]) 25 =
      some (3/2) ∧
    (none : Option ℚ) ≠ some (3/2) := by
  refine ⟨rfl, ?_, by simp⟩
  have hd : dropna [some 1, some 2, some 3, none] = [1, 2, 3] := by decide
  rw [hd]
  norm_num [np_percentile, List.insertionSort, List.orderedInsert]

/-- Claim C4 as amended: the quartiles of `numerical_check_outliers`
depend only on the non-missing values (missing entries are dropped
first), but `numerical_variable_detail` hands the raw column to
np.percentile, so any missing entry makes its quartiles missing (NaN)
rather than the quartiles of the non-missing values. -/
theorem quartiles_missing_handling (col : NumCol) (q : Nat) :
    quartiles_of ((dropna col).map some) = quartiles_of col ∧
    ((∃ x ∈ col, x = none) → np_percentile_nan col q = none) := by
  constructor
  · unfold quartiles_of
    rw [dropna_map_some (dropna col)]
  · intro hex
    obtain ⟨x, hx, hxn⟩ := hex
    unfold np_percentile_nan
    rw [if_pos]
    exact List.any_eq_true.2 ⟨x, hx, by simp [hxn]⟩

/-- Witness for the amended claim C4 at the column [1, missing]. -/
theorem quartiles_missing_handling_witness :
    quartiles_of ((dropna [some 1, none]).map some) =
      quartiles_of [some 1, none] ∧
    np_percentile_nan [some 1, none] 25 = none :=
  ⟨(quartiles_missing_handling [some 1, none] 25).1,
   (quartiles_missing_handling [some 1, none] 25).2 (by decide)⟩

/-- Claim C8: when more than one value ties for the highest non-missing
frequency the mode computation signals the multiple-frequent-categories
error instead of picking one; a column with a unique mode yields that
value. -/
theorem mode_of_spec (col : NumCol) :
    (1 < (mode_candidates col).length →
      ∃ e, mode_of col = .error e) ∧
    (∀ v, mode_candidates col = [v] → mode_of col = .ok v) := by
  constructor
  · intro h
    rcases hm : mode_candidates col with _ | ⟨a, _ | ⟨b, t⟩⟩
    · rw [hm] at h
      simp at h
    · rw [hm] at h
      simp at h
    · refine ⟨"contains multiple frequent categories", ?_⟩
      unfold mode_of
      rw [hm]
  · intro v hv
    unfold mode_of
    rw [hv]

/-- Witness for claim C8: [1,1,2,2,3] has tied modes 1 and 2 and errors;
[1,1,2] has unique mode 1 and returns it. -/
theorem mode_of_spec_witness :
    (∃ e, mode_of [some 1, some 1, some 2, some 2, some 3] = .error e) ∧
    mode_of [some 1, some 1, some 2] = .ok 1 :=
  ⟨(mode_of_spec [some 1, some 1, some 2, some 2, some 3]).1 (by decide),
   (mode_of_spec [some 1, some 1, some 2]).2 1 (by decide)⟩

/-- Claim C9, counterexample: `numerical_variable_detail` on a column
with 2 distinct values and the default threshold 20 calls sys.exit(),
terminating the process rather than raising a recoverable error to its
caller. -/
theorem numerical_variable_detail_exits_example :
    numerical_variable_detail [some 1, some 1, some 2] 20 =
      ProcOutcome.processExit ∧
    ProcOutcome.processExit ≠ ProcOutcome.completed := by
  exact ⟨by decide, by decide⟩

/-- Claim C9 as amended: the other operations surface errors as
exceptions to their caller, but `numerical_variable_detail` terminates
the running process whenever the variable's number of distinct values is
below the cardinality threshold, and only completes otherwise. -/
theorem numerical_variable_detail_exit_condition (col : NumCol)
    (threshold : Nat) :
    (nunique col < threshold →
      numerical_variable_detail col threshold = ProcOutcome.processExit) ∧
    (threshold ≤ nunique col →
      numerical_variable_detail col threshold = ProcOutcome.completed) := by
  constructor
  · intro h
    unfold numerical_variable_detail
    rw [if_pos h]
  · intro h
    unfold numerical_variable_detail
    rw [if_neg (Nat.not_lt.2 h)]

/-- Witness for the amended claim C9 at the column [1, missing]. -/
theorem numerical_variable_detail_exit_condition_witness :
    nunique [some 1, none] < 5 ∧
    numerical_variable_detail [some 1, none] 5 =
      ProcOutcome.processExit :=
  ⟨by decide,
   (numerical_variable_detail_exit_condition [some 1, none] 5).1 (by decide)⟩

end FastML
